import Mathlib

/-!
Shallow embedding of `src/bin/sims_abundance.py` (a Python 2 program): the
abundance-aggregation engine with its three modes (`md5`, `lca`, `source`),
its numeric codecs (`get_exponent`, `get_e_bin`, `get_i_bin`, `str_round`),
its abundance lookup and its report formatters.

Python floats are modelled by exact rationals together with the IEEE special
values (`PyF`).  Every numeric literal exercised by the concrete developments
below is chosen so that binary double rounding is unobservable (short decimal
values whose sums and means stay exactly representable), which makes the
rational model observationally faithful on those inputs.  All definitions are
structural, so concrete runs evaluate inside the kernel (`decide`).
-/

deriving instance DecidableEq for Except

namespace Sims

/-- Kernel-computable rationals `num / den`, kept normalized by `mkQ`
(`den > 0` and `gcd |num| den = 1` for every value built below).  They model
the exact values of the Python floats flowing through the accumulators. -/
structure Q where
  num : Int
  den : Nat
  deriving DecidableEq, Repr

/-- Normalizing constructor for `Q`; a zero denominator never arises in the
embedding (Python float division by zero is routed through `PyF.div`). -/
def mkQ (n : Int) (d : Nat) : Q :=
  if d = 0 then ⟨0, 1⟩
  else
    let g := Nat.gcd n.natAbs d
    ⟨n / (g : Int), d / g⟩

/-- Embed an integer into `Q`. -/
def intQ (n : Int) : Q := ⟨n, 1⟩

def Q.add (a b : Q) : Q := mkQ (a.num * b.den + b.num * a.den) (a.den * b.den)

def Q.neg (a : Q) : Q := ⟨-a.num, a.den⟩

def Q.sub (a b : Q) : Q := a.add b.neg

def Q.mul (a b : Q) : Q := mkQ (a.num * b.num) (a.den * b.den)

/-- Exact division on `Q`; only ever used with a nonzero divisor. -/
def Q.div (a b : Q) : Q :=
  mkQ (a.num * b.den * (if b.num < 0 then -1 else 1)) (a.den * b.num.natAbs)

/-- Decidable order on normalized rationals (denominators are positive). -/
def Q.le (a b : Q) : Bool := a.num * b.den ≤ b.num * a.den

def Q.lt (a b : Q) : Bool := a.num * b.den < b.num * a.den

/-- The value is integral (Python `int(val) == val` on a finite float). -/
def Q.isInt (a : Q) : Bool := a.den = 1

/-- Floor of a normalized rational. -/
def Q.floor (a : Q) : Int := a.num.fdiv a.den

/-- Ceiling of a normalized rational (Python `math.ceil` on exact values). -/
def Q.ceil (a : Q) : Int := -((-a.num).fdiv a.den)

/-- A Python float: NaN, a signed infinity, or a finite value modelled by its
exact rational. -/
inductive PyF where
  | nan : PyF
  | inf (pos : Bool) : PyF
  | fin (q : Q) : PyF
  deriving DecidableEq, Repr

/-- IEEE addition on modelled floats (NaN propagates; opposite infinities
give NaN). -/
def PyF.add : PyF → PyF → PyF
  | .nan, _ => .nan
  | _, .nan => .nan
  | .inf s, .inf t => if s = t then .inf s else .nan
  | .inf s, .fin _ => .inf s
  | .fin _, .inf t => .inf t
  | .fin a, .fin b => .fin (a.add b)

/-- IEEE multiplication on modelled floats (`inf * 0 = NaN`). -/
def PyF.mul : PyF → PyF → PyF
  | .nan, _ => .nan
  | _, .nan => .nan
  | .inf s, .inf t => .inf (s = t)
  | .inf s, .fin b =>
      if b.num = 0 then .nan else .inf (s = decide (0 < b.num))
  | .fin a, .inf t =>
      if a.num = 0 then .nan else .inf (t = decide (0 < a.num))
  | .fin a, .fin b => .fin (a.mul b)

/-- IEEE/NumPy division on modelled floats: `0/0 = NaN`, `x/0 = ±inf`
(NumPy emits a RuntimeWarning but continues). -/
def PyF.div : PyF → PyF → PyF
  | .nan, _ => .nan
  | _, .nan => .nan
  | .inf _, .inf _ => .nan
  | .inf s, .fin b => .inf (s = decide (0 ≤ b.num))
  | .fin _, .inf _ => .fin ⟨0, 1⟩
  | .fin a, .fin b =>
      if b.num = 0 then
        if a.num = 0 then .nan else .inf (decide (0 < a.num))
      else .fin (a.div b)

/-- The float zero. -/
def PyF.zero : PyF := .fin ⟨0, 1⟩

/-! ### String utilities (structural stand-ins for the Python string ops) -/

/-- The characters Python `str.strip()` removes. -/
def isPyWs (c : Char) : Bool :=
  c = ' ' ∨ c = '\t' ∨ c = '\n' ∨ c = '\r' ∨ c = '\x0b' ∨ c = '\x0c'

/-- Python `line.strip()`. -/
def pyStrip (s : String) : String :=
  ⟨((s.data.dropWhile isPyWs).reverse.dropWhile isPyWs).reverse⟩

/-- Helper for `splitCh`: accumulates the current field (reversed). -/
def splitChAux (sep : Char) : List Char → List Char → List (List Char)
  | [], acc => [acc.reverse]
  | c :: cs, acc =>
      if c = sep then acc.reverse :: splitChAux sep cs []
      else splitChAux sep cs (c :: acc)

/-- Python `s.split(sep)` for a one-character separator: never returns an
empty list, keeps empty fields. -/
def pySplit (sep : Char) (s : String) : List String :=
  (splitChAux sep s.data []).map fun cs => ⟨cs⟩

/-- Safe indexing into the split fields (all uses are length-guarded). -/
def fieldGet (parts : List String) (i : Nat) : String := parts.getD i ""

/-- `"\t".join(fields)`. -/
def tabJoin : List String → String
  | [] => ""
  | [s] => s
  | s :: rest => s ++ "\t" ++ tabJoin rest

def natStr (n : Nat) : String := Nat.repr n

def intStr (n : Int) : String :=
  if n < 0 then "-" ++ natStr n.natAbs else natStr n.natAbs

/-- Zero-pad a numeral to two digits (C `printf` exponent field). -/
def pad2 (n : Nat) : String := if n < 10 then "0" ++ natStr n else natStr n

/-- Zero-pad a numeral to three digits (`%.3f` fraction field). -/
def pad3 (n : Nat) : String :=
  if n < 10 then "00" ++ natStr n else if n < 100 then "0" ++ natStr n else natStr n

def stripTrailZeros (cs : List Char) : List Char :=
  (cs.reverse.dropWhile (· = '0')).reverse

def natOfDigits (cs : List Char) : Nat :=
  cs.foldl (fun acc c => 10 * acc + (c.toNat - '0'.toNat)) 0

/-! ### Python numeric-literal parsing (`float(s)`, `int(s)`)

`float(s)` rounds to the nearest IEEE double; the embedding keeps the exact
rational instead.  Every float literal fed to the runs below is either used
only through `str()` after round-tripping (where the 12-significant-digit
rendering coincides with the exact value) or is exactly representable, so the
difference is unobservable in this development. -/

/-- Leading-sign split: returns (is-negative, rest). -/
def parseSign : List Char → Bool × List Char
  | '-' :: cs => (true, cs)
  | '+' :: cs => (false, cs)
  | cs => (false, cs)

/-- Python 2 `float(s)`: optional surrounding whitespace and sign, then
`inf`/`infinity`/`nan` (case-insensitive) or a decimal literal with optional
fraction and exponent.  `none` models the `ValueError` that kills the run. -/
def parseFloat (s : String) : Option PyF :=
  let cs := ((s.data.dropWhile isPyWs).reverse.dropWhile isPyWs).reverse
  let (neg, cs) := parseSign cs
  let low := cs.map Char.toLower
  if low = "inf".data ∨ low = "infinity".data then some (.inf !neg)
  else if low = "nan".data then some .nan
  else
    let ip := cs.takeWhile Char.isDigit
    let rest := cs.dropWhile Char.isDigit
    let (fp, rest2) :=
      match rest with
      | '.' :: r2 => (r2.takeWhile Char.isDigit, r2.dropWhile Char.isDigit)
      | _ => ([], rest)
    if ip = [] ∧ fp = [] then none
    else
      let expPart : Option Int :=
        match rest2 with
        | [] => some 0
        | c :: r3 =>
            if c = 'e' ∨ c = 'E' then
              let (eneg, ds) := parseSign r3
              if ds ≠ [] ∧ ds.all Char.isDigit then
                some ((if eneg then -1 else 1) * (natOfDigits ds : Int))
              else none
            else none
      match expPart with
      | none => none
      | some ex =>
          let n10 : Int := (natOfDigits ip * 10 ^ fp.length + natOfDigits fp : Nat)
          let num0 : Int := (if neg then -1 else 1) * n10
          let e' : Int := ex - fp.length
          some (.fin (if 0 ≤ e' then intQ (num0 * 10 ^ e'.toNat)
                      else mkQ num0 (10 ^ (-e').toNat)))

/-- Python `int(s)`: optional whitespace and sign, then decimal digits only.
`none` models the `ValueError` that kills the run. -/
def parseInt (s : String) : Option Int :=
  let cs := ((s.data.dropWhile isPyWs).reverse.dropWhile isPyWs).reverse
  let (neg, ds) := parseSign cs
  if ds ≠ [] ∧ ds.all Char.isDigit then
    some ((if neg then -1 else 1) * (natOfDigits ds : Int))
  else none

/-! ### Python 2 `str(float)` (`PyOS_double_to_string` `'g'`, precision 12,
`Py_DTSF_ADD_DOT_0`) rendered from the exact rational. -/

def digitsLen (n : Nat) : Nat := (Nat.toDigits 10 n).length

/-- Is `10^e ≤ a / b`? -/
def pow10le (a b : Nat) (e : Int) : Bool :=
  if 0 ≤ e then b * 10 ^ e.toNat ≤ a else b ≤ a * 10 ^ (-e).toNat

/-- Floor of `log10 (a / b)` for `a, b ≥ 1`. -/
def decExpFloor (a b : Nat) : Int :=
  let e0 : Int := (digitsLen a : Int) - (digitsLen b : Int)
  if pow10le a b e0 then e0 else e0 - 1

/-- C `%.12g` of the exact rational (12 significant digits, fixed notation
for decimal exponents in `[-4, 12)`, scientific otherwise, trailing zeros
stripped, two-digit exponent field). -/
def formatG12 (x : Q) : String :=
  if x.num = 0 then "0"
  else
    let a := x.num.natAbs
    let b := x.den
    let e := decExpFloor a b
    let P : Int := 11 - e
    let (N, D) := if 0 ≤ P then (a * 10 ^ P.toNat, b) else (a, b * 10 ^ (-P).toNat)
    let n0 := (2 * N + D) / (2 * D)
    let (n, e) := if n0 = 10 ^ 12 then (10 ^ 11, e + 1) else (n0, e)
    let ds := (natStr n).data
    let sign : String := if x.num < 0 then "-" else ""
    if e < -4 ∨ 12 ≤ e then
      let mant := stripTrailZeros ds
      let mstr : String :=
        match mant with
        | [] => "0"
        | c :: rest => if rest = [] then ⟨[c]⟩ else ⟨c :: '.' :: rest⟩
      let esign : String := if e < 0 then "-" else "+"
      sign ++ mstr ++ "e" ++ esign ++ pad2 e.natAbs
    else
      if 0 ≤ e then
        let ipart := ds.take (e.toNat + 1)
        let fpart := stripTrailZeros (ds.drop (e.toNat + 1))
        sign ++ String.mk ipart ++ (if fpart = [] then "" else "." ++ String.mk fpart)
      else
        let fpart := stripTrailZeros (List.replicate (e.natAbs - 1) '0' ++ ds)
        sign ++ "0." ++ String.mk fpart

/-- Python 2 `str` of a finite float value: `%.12g`, then `.0` appended when
the result looks like an integer. -/
def pyFloatStr (x : Q) : String :=
  if x.num = 0 then "0.0"
  else
    let s := formatG12 x
    if s.data.contains '.' ∨ s.data.contains 'e' then s else s ++ ".0"

/-- Python 2 `str` of any modelled float. -/
def pyFStr : PyF → String
  | .nan => "nan"
  | .inf pos => if pos then "inf" else "-inf"
  | .fin x => pyFloatStr x

/-! ### Association-list helpers standing in for Python dicts.

The dicts of the program are only observed through membership, lookup and
item mutation (the md5/lca reports sort the keys, the source report iterates
fixed bin tables), so insertion-ordered association lists are an
observation-faithful model. -/

def alookup {α : Type} : List (String × α) → String → Option α
  | [], _ => none
  | (k, v) :: rest, s => if k = s then some v else alookup rest s

def aupdate {α : Type} : List (String × α) → String → (α → α) → List (String × α)
  | [], _, _ => []
  | (k, v) :: rest, s, f =>
      if k = s then (k, f v) :: rest else (k, v) :: aupdate rest s f

def ilookup : List (Int × Int) → Int → Option Int
  | [], _ => none
  | (k, v) :: rest, b => if k = b then some v else ilookup rest b

def strMem (s : String) : List String → Bool
  | [] => false
  | t :: ts => if t = s then true else strMem s ts

/-! ### Numeric binning and exponent codec (`sims_abundance.py` lines 26-146) -/

/-- `EVALS = [-5, -10, -20, -30, -1000]`. -/
def EVALS : List Int := [-5, -10, -20, -30, -1000]

/-- `IDENTS = [60, 80, 90, 97, 100]`. -/
def IDENTS : List Int := [60, 80, 90, 97, 100]

/-- `get_e_bin(val)`: `-1000` for `val == 0` or `val < -1000`, else the first
threshold of `EVALS` with `val >= e`; the trailing `return EVALS[0]` of the
source is kept although it is unreachable. -/
def get_e_bin (val : Int) : Int :=
  if val = 0 ∨ val < -1000 then -1000
  else
    match EVALS.find? (fun e => decide (e ≤ val)) with
    | some e => e
    | none => -5

/-- Float comparison `val <= i` used by `get_i_bin` (false on NaN). -/
def PyF.leInt : PyF → Int → Bool
  | .nan, _ => false
  | .inf pos, _ => !pos
  | .fin a, i => a.le (intQ i)

/-- `get_i_bin(val)`: the first threshold of `IDENTS` with `val <= i`, else
`IDENTS[0]`. -/
def get_i_bin (v : PyF) : Int :=
  match IDENTS.find? (fun i => PyF.leInt v i) with
  | some i => i
  | none => 60

/-- `get_abundance(frag, amap)`: the mapped weight, or 1 for an unknown
fragment. -/
def get_abundance (frag : String) (amap : List (String × Int)) : Int :=
  (alookup amap frag).getD 1

/-- The regex `ev_re = ^(\d(\.\d)?)e([-+])?0?(\d+)$` applied to `str(e_val)`,
returning the signed exponent the caller derives from groups 3 and 4.  The
optional `0?` before `(\d+)` never changes the numeric value of the digits
(it can only strip one redundant leading zero), so the value is computed from
all the digits after the sign. -/
def evMatch (s : String) : Option Int :=
  match s.data with
  | [] => none
  | c0 :: rest =>
      if c0.isDigit then
        let afterMant : Option (List Char) :=
          match rest with
          | '.' :: c1 :: r2 => if c1.isDigit then some r2 else none
          | '.' :: [] => none
          | _ => some rest
        match afterMant with
        | none => none
        | some ('e' :: r3) =>
            let (sgnNeg, r4) :=
              match r3 with
              | '-' :: t => (true, t)
              | '+' :: t => (false, t)
              | t => (false, t)
            if r4 ≠ [] ∧ r4.all Char.isDigit then
              some ((if sgnNeg then -1 else 1) * (natOfDigits r4 : Int))
            else none
        | some _ => none
      else none

/-- `get_exponent` on the text of a nonzero e-value: regex exponent if the
regex matches, else the dotted-decimal fallback `len(frac) * -1`, else the
fatal `logger.error(...); os._exit(1)` modelled as `.error`. -/
def get_exponent_str (s : String) : Except String Int :=
  match evMatch s with
  | some n => .ok n
  | none =>
      match pySplit '.' s with
      | [_, f] => .ok (-(f.length : Int))
      | _ => .error ("bad e-value: " ++ s)

/-- `get_exponent(e_val)` on a float argument: 0 when the value equals 0,
else the text path on `str(e_val)`. -/
def get_exponent (v : PyF) : Except String Int :=
  if v = PyF.zero then .ok 0 else get_exponent_str (pyFStr v)

/-- `str_round(val)`: `"0"` for NaN/infinite values, Python `str` for
integral values, else `"%.3f" % (math.ceil(val * 1000) / 1000)`.  Python 2's
`math.ceil` returns a float, so a negative value whose ceiling is zero prints
with the sign of `-0.0`. -/
def str_round (v : PyF) : String :=
  match v with
  | .nan => "0"
  | .inf _ => "0"
  | .fin x =>
      if x.den = 1 then pyFloatStr x
      else
        let m := (x.mul ⟨1000, 1⟩).ceil
        let sgn : String := if m < 0 ∨ (m = 0 ∧ x.num < 0) then "-" else ""
        sgn ++ natStr (m.natAbs / 1000) ++ "." ++ pad3 (m.natAbs % 1000)

/-! ### The process-wide `SOURCES = set()` (CPython 2 semantics)

`print_source_stats` iterates this builtin `set`, whose order is the slot
order of CPython's open-addressing hash table, not insertion order.  The
model implements the CPython 2 string hash (64-bit build, hash randomization
off, the default) and the 8-slot table a fresh set starts with; the runs in
this file stay below the 6-element resize threshold, where this model is
exact. -/

def M64 : Nat := 2 ^ 64

/-- CPython 2 `string_hash`: `x = s[0] << 7; for c in s: x = (1000003*x) ^ c;
x ^= len(s)`, on 64-bit two's-complement arithmetic (`-1` is remapped). -/
def py2StringHash (s : String) : Nat :=
  match s.data with
  | [] => 0
  | c0 :: _ =>
      let x0 := (c0.toNat <<< 7) % M64
      let x1 := s.data.foldl (fun x c => ((1000003 * x) % M64) ^^^ c.toNat) x0
      let x2 := x1 ^^^ s.data.length
      if x2 = M64 - 1 then M64 - 2 else x2

/-- CPython `set_lookkey` probing: start at `hash & 7`, recur with
`i = i*5 + perturb + 1; perturb >>= 5` until the slot is empty or holds the
key.  The fuel bounds the loop; it never runs out below table capacity. -/
def pySetProbeAux (slots : List (Option String)) (s : String) :
    Nat → Nat → Nat → Nat
  | i, _, 0 => i % 8
  | i, perturb, fuel + 1 =>
      match slots.getD (i % 8) none with
      | none => i % 8
      | some t =>
          if t = s then i % 8
          else pySetProbeAux slots s ((5 * i + perturb + 1) % M64) (perturb >>> 5) fuel

def pySetEmpty : List (Option String) :=
  [none, none, none, none, none, none, none, none]

/-- The slot `set_lookkey` settles on for key `s`. -/
def pySetSlot (slots : List (Option String)) (s : String) : Nat :=
  pySetProbeAux slots s (py2StringHash s % 8) (py2StringHash s) 64

/-- `SOURCES.add(s)`. -/
def pySetAdd (slots : List (Option String)) (s : String) : List (Option String) :=
  match slots.getD (pySetSlot slots s) none with
  | some _ => slots
  | none => slots.set (pySetSlot slots s) (some s)

/-- `for source in SOURCES`: ascending slot scan of the hash table. -/
def pySetElems (slots : List (Option String)) : List String := slots.filterMap id

/-! ### md5 (checksum) mode: state, per-line step, report
(`sims_abundance.py` lines 148-173 and 281-301).

The NumPy accumulator fields are `uint32` for `abun` (wrapping `+=`) and
`float32` for the sums; the sums are modelled by exact values (`PyF`), which
agrees with `float32` arithmetic for the small exactly-representable values
all the concrete runs below use. -/

structure Md5Stats where
  abun : Nat
  esum : PyF
  lsum : PyF
  isum : PyF
  deriving DecidableEq, Repr

def md5Zero : Md5Stats := ⟨0, PyF.zero, PyF.zero, PyF.zero⟩

structure Md5State where
  prevFrag : String
  fragKeys : List String
  data : List (String × Md5Stats)
  deriving DecidableEq, Repr

def md5Init : Md5State := ⟨"", [], []⟩

/-- The common fold `abun+=w; esum+=w*e; lsum+=w*l; isum+=w*i`. -/
def md5Fold (ab eexp len : Int) (ident : PyF) (s : Md5Stats) : Md5Stats :=
  { abun := (s.abun + ab.toNat) % 2 ^ 32
    esum := s.esum.add (.fin (intQ (ab * eexp)))
    lsum := s.lsum.add (.fin (intQ (ab * len)))
    isum := s.isum.add ((PyF.fin (intQ ab)).mul ident) }

/-- One md5-mode input line, already tab-split.  `Except.error` models the
run-killing paths: an uncaught `ValueError` from `float`/`int`, or
`get_exponent`'s `os._exit(1)`.  Mirrors the source order: field-count and
empty-identifier guards, numeric conversion, dedup-set clearing on fragment
change, dedup test, lazy bucket creation, exponent, abundance, the `continue`
on weight < 1 (which skips the `prev_frag` update), fold, dedup-set add. -/
def md5StepParts (amap : List (String × Int)) (st : Md5State)
    (parts : List String) : Except String Md5State :=
  if parts.length < 12 then .ok st
  else
    let frag := fieldGet parts 0
    let md5v := fieldGet parts 1
    if frag = "" ∨ md5v = "" then .ok st
    else
      match parseFloat (fieldGet parts 2), parseInt (fieldGet parts 3),
            parseFloat (fieldGet parts 10) with
      | some identV, some lenV, some evalV =>
          let fragKeys1 := if frag ≠ st.prevFrag then [] else st.fragKeys
          if strMem md5v fragKeys1 then
            .ok { st with prevFrag := frag, fragKeys := fragKeys1 }
          else
            let data1 :=
              if alookup st.data md5v = none then st.data ++ [(md5v, md5Zero)]
              else st.data
            match get_exponent evalV with
            | .error e => .error e
            | .ok eexp =>
                let ab := get_abundance frag amap
                if ab < 1 then
                  .ok { st with fragKeys := fragKeys1, data := data1 }
                else
                  .ok { prevFrag := frag
                        fragKeys := fragKeys1 ++ [md5v]
                        data := aupdate data1 md5v (md5Fold ab eexp lenV identV) }
      | _, _, _ => .error "ValueError: invalid numeric field"

/-- Run a per-line step over the input lines, stopping at a fatal error. -/
def runE {σ : Type} (step : σ → String → Except String σ) :
    σ → List String → Except String σ
  | st, [] => .ok st
  | st, l :: ls =>
      match step st l with
      | .error e => .error e
      | .ok st' => runE step st' ls

def md5Step (amap : List (String × Int)) (st : Md5State) (line : String) :
    Except String Md5State :=
  md5StepParts amap st (pySplit '\t' (pyStrip line))

def runMd5 (amap : List (String × Int)) (lines : List String) :
    Except String Md5State :=
  runE (md5Step amap) md5Init lines

/-- Ascending byte-lexicographic string order (Python `sorted` on the ASCII
keys used here). -/
def chLe : List Char → List Char → Bool
  | [], _ => true
  | _ :: _, [] => false
  | a :: as, b :: bs => if a = b then chLe as bs else decide (a.toNat < b.toNat)

def strLe (a b : String) : Bool := chLe a.data b.data

def insertSorted (s : String) : List String → List String
  | [] => [s]
  | t :: ts => if strLe s t then s :: t :: ts else t :: insertSorted s ts

def sortStrings (l : List String) : List String := l.foldr insertSorted []

/-- `np.where(imap['md5']==md5)` first match plus the
`length <= 2147483647` guard; `(0, 0)` when absent or with no index file. -/
def md5IndexLookup (imap : Option (List (String × Nat × Nat))) (m : String) :
    Nat × Nat :=
  match imap with
  | none => (0, 0)
  | some ia =>
      match ia.find? (fun e => decide (e.1 = m)) with
      | none => (0, 0)
      | some (_, sk, ln) => if ln ≤ 2147483647 then (sk, ln) else (0, 0)

/-- `print_md5_stats`: nothing for an empty accumulator, else one row per
key in sorted order; the means divide by `abun` (NaN on the 0/0 of an
all-zero bucket, which `str_round` renders as "0"). -/
def print_md5_stats (imap : Option (List (String × Nat × Nat)))
    (data : List (String × Md5Stats)) : String :=
  if data.isEmpty then ""
  else
    (sortStrings (data.map Prod.fst)).foldl
      (fun acc m =>
        let s := (alookup data m).getD md5Zero
        let e_mean := s.esum.div (.fin (intQ s.abun))
        let l_mean := s.lsum.div (.fin (intQ s.abun))
        let i_mean := s.isum.div (.fin (intQ s.abun))
        let (seek, len) := md5IndexLookup imap m
        acc ++ tabJoin [m, natStr s.abun, str_round e_mean, str_round l_mean,
                        str_round i_mean, natStr seek, natStr len] ++ "\n")
      ""

/-- End-to-end md5 mode: fold all lines, then format the report. -/
def runMd5Report (amap : List (String × Int))
    (imap : Option (List (String × Nat × Nat))) (lines : List String) :
    Except String String :=
  match runMd5 amap lines with
  | .error e => .error e
  | .ok st => .ok (print_md5_stats imap st.data)

/-! ### lca (taxonomy) mode (`sims_abundance.py` lines 175-190 and 302-325).

`prev_frag` is assigned but never read in this mode, so it is omitted from
the state.  `lvl` is a NumPy `uint8` (assignment wraps mod 256). -/

structure LcaStats where
  abun : Nat
  esum : PyF
  lsum : PyF
  isum : PyF
  lvl : Nat
  deriving DecidableEq, Repr

def lcaZero : LcaStats := ⟨0, PyF.zero, PyF.zero, PyF.zero, 0⟩

structure LcaState where
  data : List (String × LcaStats)
  md5s : List (String × Nat)
  deriving DecidableEq, Repr

def lcaInit : LcaState := ⟨[], []⟩

/-- `map(lambda x: get_exponent(float(x)), e_val.split(';'))` — Python 2
`map` is eager, failing left to right. -/
def parseEList : List String → Except String (List Int)
  | [] => .ok []
  | s :: rest =>
      match parseFloat s with
      | none => .error "ValueError: invalid float"
      | some v =>
          match get_exponent v with
          | .error e => .error e
          | .ok n =>
              match parseEList rest with
              | .error e => .error e
              | .ok ns => .ok (n :: ns)

def parseIntList : List String → Except String (List Int)
  | [] => .ok []
  | s :: rest =>
      match parseInt s with
      | none => .error "ValueError: invalid int"
      | some n =>
          match parseIntList rest with
          | .error e => .error e
          | .ok ns => .ok (n :: ns)

def parseFloatList : List String → Except String (List PyF)
  | [] => .ok []
  | s :: rest =>
      match parseFloat s with
      | none => .error "ValueError: invalid float"
      | some v =>
          match parseFloatList rest with
          | .error e => .error e
          | .ok vs => .ok (v :: vs)

/-- Python 2 `sum(xs) / len(xs)` on an integer list: floor division. -/
def pyIntAvg (xs : List Int) : Int := Int.fdiv xs.sum xs.length

/-- Python 2 `sum(xs) / len(xs)` on a float list: exact float division. -/
def pyFloatAvg (xs : List PyF) : PyF :=
  (xs.foldl PyF.add PyF.zero).div (.fin (intQ xs.length))

/-- One lca-mode input line, already tab-split, mirroring the source order:
guards, lazy bucket creation (before the weight check), abundance,
`continue` on weight < 1, the three eager `map` conversions, the cumulative
checksum-token count, the three averages, the fold, and the `uint8` level
assignment. -/
def lcaStepParts (amap : List (String × Int)) (st : LcaState)
    (parts : List String) : Except String LcaState :=
  if parts.length < 7 then .ok st
  else
    let md5v := fieldGet parts 0
    let frag := fieldGet parts 1
    let identS := fieldGet parts 2
    let lengthS := fieldGet parts 3
    let evalS := fieldGet parts 4
    let lca := fieldGet parts 5
    let level := fieldGet parts 6
    if frag = "" ∨ md5v = "" ∨ lca = "" then .ok st
    else
      let (data1, md5s1) :=
        if alookup st.data lca = none then
          (st.data ++ [(lca, lcaZero)], st.md5s ++ [(lca, 0)])
        else (st.data, st.md5s)
      let ab := get_abundance frag amap
      if ab < 1 then .ok ⟨data1, md5s1⟩
      else
        match parseEList (pySplit ';' evalS) with
        | .error e => .error e
        | .ok eList =>
            match parseIntList (pySplit ';' lengthS) with
            | .error e => .error e
            | .ok lList =>
                match parseFloatList (pySplit ';' identS) with
                | .error e => .error e
                | .ok iList =>
                    match parseInt level with
                    | none => .error "ValueError: invalid int"
                    | some lvlI =>
                        let mdCount := (pySplit ';' md5v).length
                        let e_avg := pyIntAvg eList
                        let l_avg := pyIntAvg lList
                        let i_avg := pyFloatAvg iList
                        .ok ⟨aupdate data1 lca (fun s =>
                               { abun := (s.abun + ab.toNat) % 2 ^ 32
                                 esum := s.esum.add (.fin (intQ (ab * e_avg)))
                                 lsum := s.lsum.add (.fin (intQ (ab * l_avg)))
                                 isum := s.isum.add ((PyF.fin (intQ ab)).mul i_avg)
                                 lvl := (lvlI.emod 256).toNat }),
                             aupdate md5s1 lca (· + mdCount)⟩

def lcaStep (amap : List (String × Int)) (st : LcaState) (line : String) :
    Except String LcaState :=
  lcaStepParts amap st (pySplit '\t' (pyStrip line))

def runLca (amap : List (String × Int)) (lines : List String) :
    Except String LcaState :=
  runE (lcaStep amap) lcaInit lines

/-- `print_lca_stats`. -/
def print_lca_stats (st : LcaState) : String :=
  if st.data.isEmpty then ""
  else
    (sortStrings (st.data.map Prod.fst)).foldl
      (fun acc k =>
        let s := (alookup st.data k).getD lcaZero
        let e_mean := s.esum.div (.fin (intQ s.abun))
        let l_mean := s.lsum.div (.fin (intQ s.abun))
        let i_mean := s.isum.div (.fin (intQ s.abun))
        acc ++ tabJoin [k, natStr s.abun, str_round e_mean, str_round l_mean,
                        str_round i_mean, natStr ((alookup st.md5s k).getD 0),
                        natStr s.lvl] ++ "\n")
      ""

/-- End-to-end lca mode: fold all lines, then format the report. -/
def runLcaReport (amap : List (String × Int)) (lines : List String) :
    Except String String :=
  match runLca amap lines with
  | .error e => .error e
  | .ok st => .ok (print_lca_stats st)

/-! ### source mode (`sims_abundance.py` lines 192-209 and 326-341).

`prev_frag` and `frag_keys` are written but never read in this mode and are
omitted.  The two histograms are the `defaultdict(lambda: defaultdict(int))`
tables `data['e_val']` and `data['ident']`; since source mode always installs
those two top-level keys, the `len(data) == 0` early return of
`print_source_stats` never fires. -/

structure SrcState where
  table : List (Option String)
  eVal : List (String × List (Int × Int))
  ident : List (String × List (Int × Int))
  deriving DecidableEq, Repr

def srcInit : SrcState := ⟨pySetEmpty, [], []⟩

/-- `hist[source][bin] += w` on a two-level defaultdict. -/
def bumpBin : List (Int × Int) → Int → Int → List (Int × Int)
  | [], b, w => [(b, w)]
  | (k, c) :: rest, b, w =>
      if k = b then (k, c + w) :: rest else (k, c) :: bumpBin rest b w

def bumpHist (h : List (String × List (Int × Int))) (s : String) (b w : Int) :
    List (String × List (Int × Int)) :=
  match alookup h s with
  | none => h ++ [(s, [(b, w)])]
  | some _ => aupdate h s (fun l => bumpBin l b w)

/-- The folded part of a qualifying source-mode record: `SOURCES.add` and
the two histogram increments. -/
def srcApply (st : SrcState) (src : String) (eb ib ab : Int) : SrcState :=
  { table := pySetAdd st.table src
    eVal := bumpHist st.eVal src eb ab
    ident := bumpHist st.ident src ib ab }

/-- One source-mode input line, already tab-split, mirroring the source
order: guards, float conversions, exponent, abundance, `continue` on
weight < 1, binning, `SOURCES.add`, and the two histogram increments.
Field positions: 1 = fragment, 2 = identity, 4 = e-value, 5 = source. -/
def srcStepParts (amap : List (String × Int)) (st : SrcState)
    (parts : List String) : Except String SrcState :=
  if parts.length < 6 then .ok st
  else if fieldGet parts 1 = "" ∨ fieldGet parts 5 = "" then .ok st
  else
    match parseFloat (fieldGet parts 2), parseFloat (fieldGet parts 4) with
    | some identV, some evalV =>
        match get_exponent evalV with
        | .error e => .error e
        | .ok eexp =>
            if get_abundance (fieldGet parts 1) amap < 1 then .ok st
            else .ok (srcApply st (fieldGet parts 5) (get_e_bin eexp)
                        (get_i_bin identV) (get_abundance (fieldGet parts 1) amap))
    | _, _ => .error "ValueError: invalid float"

def srcStep (amap : List (String × Int)) (st : SrcState) (line : String) :
    Except String SrcState :=
  srcStepParts amap st (pySplit '\t' (pyStrip line))

def runSrc (amap : List (String × Int)) (lines : List String) :
    Except String SrcState :=
  runE (srcStep amap) srcInit lines

/-- One count column per declared bin, 0 when absent. -/
def binCols (bins : List Int) (h : List (Int × Int)) : String :=
  bins.foldl (fun a b => a ++ "\t" ++ intStr ((ilookup h b).getD 0)) ""

/-- `print_source_stats`: iterate `SOURCES` in hash-set order, skip a source
absent from the e-value histogram, emit the fixed bin columns. -/
def print_source_stats (st : SrcState) : String :=
  (pySetElems st.table).foldl
    (fun acc src =>
      match alookup st.eVal src with
      | none => acc
      | some eh =>
          acc ++ src ++ binCols EVALS eh ++
            binCols IDENTS ((alookup st.ident src).getD []) ++ "\n")
    ""

def runSrcReport (amap : List (String × Int)) (lines : List String) :
    Except String String :=
  match runSrc amap lines with
  | .error e => .error e
  | .ok st => .ok (print_source_stats st)

/-! ### Spec-side definitions and invariants used by the claim theorems -/

/-- The e-value binning rule in the spec's words: scan the ordered thresholds
and return the first one the exponent is greater than or equal to; exponents
more extreme than -1000, or exactly 0, collapse to -1000.  Stated separately
from `get_e_bin` (which is translated from the source) so the two can be
compared. -/
def specEBin (v : Int) : Int :=
  if v = 0 ∨ v < -1000 then -1000
  else (EVALS.find? (fun e => decide (e ≤ v))).getD (-1000)

/-- Total weight folded into one histogram row. -/
def sumCounts (h : List (Int × Int)) : Int := (h.map Prod.snd).sum

/-- The source-mode histogram invariant: both histograms hold the same
sources, with equal per-source totals, and every member of `SOURCES` has an
e-value row. -/
def SrcInv (st : SrcState) : Prop :=
  (∀ s, (alookup st.eVal s).isSome = true ↔ (alookup st.ident s).isSome = true) ∧
  (∀ s eh ih, alookup st.eVal s = some eh → alookup st.ident s = some ih →
      sumCounts eh = sumCounts ih) ∧
  (∀ s, s ∈ pySetElems st.table → (alookup st.eVal s).isSome = true)

/-! ### Association-list and histogram lemmas -/

theorem alookup_append_some {α : Type} (h1 h2 : List (String × α)) (t : String)
    (v : α) (h : alookup h1 t = some v) : alookup (h1 ++ h2) t = some v := by
  induction h1 with
  | nil => simp [alookup] at h
  | cons kv rest ih =>
      obtain ⟨k, x⟩ := kv
      by_cases hk : k = t
      · simp [alookup, hk] at h ⊢; exact h
      · simp [alookup, hk] at h ⊢; exact ih h

theorem alookup_append_none {α : Type} (h1 h2 : List (String × α)) (t : String)
    (h : alookup h1 t = none) : alookup (h1 ++ h2) t = alookup h2 t := by
  induction h1 with
  | nil => simp [alookup]
  | cons kv rest ih =>
      obtain ⟨k, x⟩ := kv
      by_cases hk : k = t
      · simp [alookup, hk] at h
      · simp [alookup, hk] at h ⊢; exact ih h

theorem alookup_aupdate {α : Type} (h : List (String × α)) (s t : String)
    (f : α → α) :
    alookup (aupdate h s f) t = if t = s then (alookup h t).map f else alookup h t := by
  induction h with
  | nil => simp [alookup, aupdate]
  | cons kv rest ih =>
      obtain ⟨k, x⟩ := kv
      by_cases hks : k = s
      · by_cases hkt : k = t
        · have hts : t = s := by rw [← hkt]; exact hks
          simp [alookup, aupdate, hks, hkt, hts]
        · have hts : ¬ t = s := fun hh => hkt (hks.trans hh.symm)
          have hst : ¬ s = t := fun hh => hts hh.symm
          simp [alookup, aupdate, hks, hkt, hts, hst]
      · by_cases hkt : k = t
        · have hts : ¬ t = s := fun hh => hks ((hkt.trans hh) : k = s)
          simp [alookup, aupdate, hks, hkt, hts]
        · simp [alookup, aupdate, hks, hkt, ih]

theorem sumCounts_bumpBin (l : List (Int × Int)) (b w : Int) :
    sumCounts (bumpBin l b w) = sumCounts l + w := by
  induction l with
  | nil => simp [bumpBin, sumCounts]
  | cons kv rest ih =>
      obtain ⟨k, c⟩ := kv
      by_cases hk : k = b
      · simp [bumpBin, hk, sumCounts]; ring
      · simp [bumpBin, hk, sumCounts] at ih ⊢; omega

theorem alookup_bumpHist_self (h : List (String × List (Int × Int)))
    (s : String) (b w : Int) :
    alookup (bumpHist h s b w) s =
      some (match alookup h s with
            | none => [(b, w)]
            | some l => bumpBin l b w) := by
  unfold bumpHist
  cases hc : alookup h s with
  | none =>
      rw [alookup_append_none _ _ _ hc]
      simp [alookup]
  | some l =>
      rw [alookup_aupdate]
      simp [hc]

theorem alookup_bumpHist_ne (h : List (String × List (Int × Int)))
    (s t : String) (b w : Int) (hne : t ≠ s) :
    alookup (bumpHist h s b w) t = alookup h t := by
  unfold bumpHist
  cases hc : alookup h s with
  | none =>
      cases ht : alookup h t with
      | none =>
          rw [alookup_append_none _ _ _ ht]
          have hst : ¬ s = t := fun hh => hne hh.symm
          simp [alookup, hst]
      | some v => exact alookup_append_some _ _ _ _ ht
  | some l =>
      rw [alookup_aupdate]
      simp [hne]

theorem isSome_bumpHist (h : List (String × List (Int × Int)))
    (s t : String) (b w : Int) :
    (alookup (bumpHist h s b w) t).isSome = true ↔
      ((alookup h t).isSome = true ∨ t = s) := by
  by_cases hts : t = s
  · subst hts; rw [alookup_bumpHist_self]; simp
  · rw [alookup_bumpHist_ne _ _ _ _ _ hts]; simp [hts]

/-! ### Hash-set membership lemma -/

theorem mem_pySetAdd (tab : List (Option String)) (s t : String)
    (h : t ∈ pySetElems (pySetAdd tab s)) : t ∈ pySetElems tab ∨ t = s := by
  unfold pySetAdd at h
  split at h
  · exact Or.inl h
  · simp only [pySetElems, List.mem_filterMap, id] at h ⊢
    obtain ⟨o, ho, rfl⟩ := h
    rcases List.mem_or_eq_of_mem_set ho with hm | heq
    · exact Or.inl ⟨_, hm, rfl⟩
    · exact Or.inr (Option.some.inj heq)

/-! ### Source-mode invariant preservation -/

theorem srcInv_apply (st : SrcState) (src : String) (eb ib ab : Int)
    (h : SrcInv st) : SrcInv (srcApply st src eb ib ab) := by
  obtain ⟨h1, h2, h3⟩ := h
  refine ⟨?_, ?_, ?_⟩
  · intro s
    show (alookup (bumpHist st.eVal src eb ab) s).isSome = true ↔
         (alookup (bumpHist st.ident src ib ab) s).isSome = true
    rw [isSome_bumpHist, isSome_bumpHist, h1 s]
  · intro s eh ih he hi
    simp only [srcApply] at he hi
    by_cases hs : s = src
    · subst hs
      rw [alookup_bumpHist_self] at he hi
      cases hev : alookup st.eVal s with
      | none =>
          have hid : alookup st.ident s = none := by
            cases hid2 : alookup st.ident s with
            | none => rfl
            | some l =>
                have := (h1 s).mpr (by simp [hid2])
                simp [hev] at this
          rw [hev] at he; rw [hid] at hi
          simp at he hi
          subst he; subst hi
          simp [sumCounts]
      | some l =>
          have hids : (alookup st.ident s).isSome = true := (h1 s).mp (by simp [hev])
          cases hid : alookup st.ident s with
          | none => simp [hid] at hids
          | some l' =>
              rw [hev] at he; rw [hid] at hi
              simp at he hi
              subst he; subst hi
              rw [sumCounts_bumpBin, sumCounts_bumpBin, h2 s l l' hev hid]
    · rw [alookup_bumpHist_ne _ _ _ _ _ hs] at he hi
      exact h2 s eh ih he hi
  · intro s hmem
    simp only [srcApply] at hmem
    show (alookup (bumpHist st.eVal src eb ab) s).isSome = true
    rcases mem_pySetAdd _ _ _ hmem with hm | rfl
    · rw [isSome_bumpHist]; exact Or.inl (h3 s hm)
    · rw [isSome_bumpHist]; exact Or.inr rfl

theorem srcStepParts_cases (amap : List (String × Int)) (st : SrcState)
    (parts : List String) (st' : SrcState)
    (h : srcStepParts amap st parts = .ok st') :
    st' = st ∨ ∃ src eb ib ab, st' = srcApply st src eb ib ab := by
  unfold srcStepParts at h
  split at h
  · exact Or.inl (Except.ok.inj h).symm
  · split at h
    · exact Or.inl (Except.ok.inj h).symm
    · split at h
      · split at h
        · exact Except.noConfusion h
        · split at h
          · exact Or.inl (Except.ok.inj h).symm
          · exact Or.inr ⟨_, _, _, _, (Except.ok.inj h).symm⟩
      · exact Except.noConfusion h

theorem runE_preserve {σ : Type} (P : σ → Prop)
    (step : σ → String → Except String σ)
    (hstep : ∀ st l st', P st → step st l = .ok st' → P st') :
    ∀ (lines : List String) (st st' : σ),
      P st → runE step st lines = .ok st' → P st' := by
  intro lines
  induction lines with
  | nil =>
      intro st st' hP h
      unfold runE at h
      exact (Except.ok.inj h) ▸ hP
  | cons l ls ih =>
      intro st st' hP h
      unfold runE at h
      cases hs : step st l with
      | error e => rw [hs] at h; exact Except.noConfusion h
      | ok st1 =>
          rw [hs] at h
          exact ih st1 st' (hstep st l st1 hP hs) h

theorem srcInv_init : SrcInv srcInit := by
  refine ⟨fun s => by simp [srcInit, alookup], ?_, ?_⟩
  · intro s eh ih he _
    simp [srcInit, alookup] at he
  · intro s hm
    simp [srcInit, pySetElems, pySetEmpty] at hm

/-! ### Claim theorems -/

/-- Claim C1 (confirmed): in checksum (md5) mode, for the record sequence
(frag=A,key=X), (frag=A,key=X), (frag=B,key=X), (frag=A,key=X), key X's
accumulator is folded once for the first contiguous A-block (the adjacent
repeat is skipped wholesale, leaving the state unchanged), once for the B
record, and once more for the trailing non-contiguous A repeat: the dedup
gate works only within a contiguous fragment block, never globally.  With
unit weights this shows as abundance 1, 2, 3 over the successive prefixes. -/
theorem c1_dedup_gate_contiguous_only :
    (runMd5 [] ["A\tX\t100.0\t50\t0\t0\t0\t0\t0\t0\t1e-10\t0",
                "A\tX\t100.0\t50\t0\t0\t0\t0\t0\t0\t1e-10\t0"]
      = runMd5 [] ["A\tX\t100.0\t50\t0\t0\t0\t0\t0\t0\t1e-10\t0"]) ∧
    ((runMd5 [] ["A\tX\t100.0\t50\t0\t0\t0\t0\t0\t0\t1e-10\t0",
                 "A\tX\t100.0\t50\t0\t0\t0\t0\t0\t0\t1e-10\t0"]).map
        (fun st => (alookup st.data "X").map Md5Stats.abun) = .ok (some 1)) ∧
    ((runMd5 [] ["A\tX\t100.0\t50\t0\t0\t0\t0\t0\t0\t1e-10\t0",
                 "A\tX\t100.0\t50\t0\t0\t0\t0\t0\t0\t1e-10\t0",
                 "B\tX\t100.0\t50\t0\t0\t0\t0\t0\t0\t1e-10\t0"]).map
        (fun st => (alookup st.data "X").map Md5Stats.abun) = .ok (some 2)) ∧
    ((runMd5 [] ["A\tX\t100.0\t50\t0\t0\t0\t0\t0\t0\t1e-10\t0",
                 "A\tX\t100.0\t50\t0\t0\t0\t0\t0\t0\t1e-10\t0",
                 "B\tX\t100.0\t50\t0\t0\t0\t0\t0\t0\t1e-10\t0",
                 "A\tX\t100.0\t50\t0\t0\t0\t0\t0\t0\t1e-10\t0"]).map
        (fun st => (alookup st.data "X").map Md5Stats.abun) = .ok (some 3)) := by
  decide

/-- Claim C2 (counterexample): on the single checksum-mode line
`f1 KEYA 100.0 50 0 0 0 0 0 0 1e-10 0` with no side files, the program does
not write the row `KEYA 1 -10 50 100 0 0` the claim states (neither with nor
without the trailing newline): the three means are Python 2 `str()` of
integral floats and keep their `.0` suffix. -/
theorem c2_counterexample :
    runMd5Report [] none ["f1\tKEYA\t100.0\t50\t0\t0\t0\t0\t0\t0\t1e-10\t0"]
      ≠ .ok ("KEYA\t1\t-10\t50\t100\t0\t0" ++ "\n") ∧
    runMd5Report [] none ["f1\tKEYA\t100.0\t50\t0\t0\t0\t0\t0\t0\t1e-10\t0"]
      ≠ .ok "KEYA\t1\t-10\t50\t100\t0\t0" := by
  decide

/-- Claim C2 (amended): on the single checksum-mode line
`f1 KEYA 100.0 50 0 0 0 0 0 0 1e-10 0` with no side files, the program
writes exactly one output row, `KEYA 1 -10.0 50.0 100.0 0 0` (key KEYA,
abundance 1 from the default weight, exponent mean -10.0, length mean 50.0,
identity mean 100.0, seek 0, length 0; the integral means are rendered by
Python 2 `str(float)` with a trailing `.0`). -/
theorem c2_amended_end_to_end :
    runMd5Report [] none ["f1\tKEYA\t100.0\t50\t0\t0\t0\t0\t0\t0\t1e-10\t0"]
      = .ok "KEYA\t1\t-10.0\t50.0\t100.0\t0\t0\n" := by
  decide

/-- Claim C3 (counterexample): `str_round` does not map the integral input
3.0 to the plain integer text "3"; Python 2 `str(3.0)` is "3.0". -/
theorem c3_counterexample : str_round (.fin (intQ 3)) ≠ "3" := by decide

/-- Claim C3 (amended): `str_round` maps every infinite or NaN input to "0";
maps inputs equal to an integer to Python 2 float text (keeping the `.0`
suffix, so `round3(3.0) = "3.0"`, `round3(-10.0) = "-10.0"`,
`round3(0.0) = "0.0"`); and maps every other input to its ceiling-rounded
value at 3 decimals rendered with exactly 3 fractional digits, so
`round3(2.0005) = "2.001"` and `round3(2.5) = "2.500"`. -/
theorem c3_amended_str_round :
    str_round PyF.nan = "0" ∧
    str_round (.inf true) = "0" ∧
    str_round (.inf false) = "0" ∧
    str_round (.fin (intQ 3)) = "3.0" ∧
    str_round (.fin (intQ (-10))) = "-10.0" ∧
    str_round (.fin (intQ 0)) = "0.0" ∧
    str_round (.fin (mkQ 4001 2000)) = "2.001" ∧
    str_round (.fin (mkQ 5 2)) = "2.500" := by
  decide

/-- Claim C4 (counterexample): in source mode, with sources first
encountered in the order b, c, the report rows come out c before b — the
iteration order of the builtin `set` `SOURCES` (hash-slot order), not the
discovery order the claim states. -/
theorem c4_counterexample :
    runSrcReport [] ["m\tf1\t100.0\t50\t1e-10\tb", "m\tf2\t100.0\t50\t1e-10\tc"]
      = .ok ("c\t0\t1\t0\t0\t0\t0\t0\t0\t0\t1\n" ++ "b\t0\t1\t0\t0\t0\t0\t0\t0\t0\t1\n") ∧
    ("c\t0\t1\t0\t0\t0\t0\t0\t0\t0\t1\n" ++ "b\t0\t1\t0\t0\t0\t0\t0\t0\t0\t1\n")
      ≠ ("b\t0\t1\t0\t0\t0\t0\t0\t0\t0\t1\n" ++ "c\t0\t1\t0\t0\t0\t0\t0\t0\t0\t1\n") := by
  decide

/-- Claim C4 (amended): the source report rows appear in the iteration order
of the process-wide CPython hash set `SOURCES` (ascending slot order, slot =
probe of hash mod 8), which is independent of the discovery order — the same
rows come out for either discovery order of b and c, c first because
hash("c") lands in slot 2 and hash("b") in slot 3 — and is in general
neither the discovery order nor sorted order. -/
theorem c4_amended_source_order :
    runSrcReport [] ["m\tf1\t100.0\t50\t1e-10\tb", "m\tf2\t100.0\t50\t1e-10\tc"]
      = .ok ("c\t0\t1\t0\t0\t0\t0\t0\t0\t0\t1\n" ++ "b\t0\t1\t0\t0\t0\t0\t0\t0\t0\t1\n") ∧
    runSrcReport [] ["m\tf2\t100.0\t50\t1e-10\tc", "m\tf1\t100.0\t50\t1e-10\tb"]
      = .ok ("c\t0\t1\t0\t0\t0\t0\t0\t0\t0\t1\n" ++ "b\t0\t1\t0\t0\t0\t0\t0\t0\t0\t1\n") ∧
    py2StringHash "c" % 8 = 2 ∧
    py2StringHash "b" % 8 = 3 := by
  decide

/-- Claim C5 (counterexample): in taxonomy (lca) mode, the record with
e-values `1e-5;1e-10` (exponents -5 and -10) folds `esum = -8`, the Python 2
integer floor division `(-15)/2`, not the exact arithmetic mean `-15/2 =
-7.5` the claim states. -/
theorem c5_counterexample :
    ((runLca [] ["m1;m2\tf1\t100.0;100.0\t50;50\t1e-5;1e-10\tTAX1\t3"]).map
        (fun st => alookup st.data "TAX1")
      = .ok (some ⟨1, .fin (intQ (-8)), .fin (intQ 50), .fin (intQ 100), 3⟩)) ∧
    intQ (-8) ≠ Q.div (intQ (-15)) (intQ 2) := by
  decide

/-- Claim C5 (amended): in taxonomy mode each semicolon sub-list is averaged
before folding, but the e-value-exponent and length sub-lists — integer
lists under Python 2 `/` — are averaged with floor division, i.e. the floor
of the exact mean, while only the identity sub-list (floats) is exactly
arithmetic-averaged; the averages then enter the common fold.  Witnessed by
the record with exponents -5,-10 (average -8 = ⌊-7.5⌋) and identities
99.0,100.0 (average exactly 99.5 entering `isum`). -/
theorem c5_amended_lca_averaging :
    (∀ xs : List Int, pyIntAvg xs = ⌊(xs.sum : ℚ) / (xs.length : ℚ)⌋) ∧
    pyIntAvg [-5, -10] = -8 ∧
    pyFloatAvg [.fin (intQ 99), .fin (intQ 100)] = .fin (mkQ 199 2) ∧
    ((runLca [] ["m1;m2\tf1\t99.0;100.0\t50;50\t1e-5;1e-10\tTAX2\t3"]).map
        (fun st => alookup st.data "TAX2")
      = .ok (some ⟨1, .fin (intQ (-8)), .fin (intQ 50), .fin (mkQ 199 2), 3⟩)) := by
  refine ⟨?_, by decide, by decide, by decide⟩
  intro xs
  unfold pyIntAvg
  rw [Int.fdiv_eq_ediv _ (Int.natCast_nonneg xs.length)]
  exact (Rat.floor_intCast_div_natCast xs.sum xs.length).symm

/-- Claim C6 (counterexample): in checksum mode a record whose fragment
resolves to weight 0 is not skipped atomically: the empty stats bucket for
its key is created before the weight check, and the key appears in the
emitted report with abundance 0 (the 0/0 means print as "0"), contradicting
the claim that such a key never appears. -/
theorem c6_counterexample :
    runMd5Report [("f1", 0)] none ["f1\tKEYZ\t100.0\t50\t0\t0\t0\t0\t0\t0\t1e-10\t0"]
      = .ok "KEYZ\t0\t0\t0\t0\t0\t0\n" ∧
    ((runMd5 [("f1", 0)] ["f1\tKEYZ\t100.0\t50\t0\t0\t0\t0\t0\t0\t1e-10\t0"]).map
        (fun st => alookup st.data "KEYZ") = .ok (some md5Zero)) ∧
    "KEYZ\t0\t0\t0\t0\t0\t0\n" ≠ "" := by
  decide

/-- Claim C6 (amended): a record whose resolved weight is below 1 never
touches the numeric accumulators, but the skip is atomic only in source
mode, where the step returns the state unchanged; in checksum and taxonomy
modes the empty stats bucket (all-zero sums, and the taxonomy checksum
counter) is created for the record's key before the weight check, so a key
occurring only on zero-weight records appears in the md5/lca report with
abundance 0 and zeroed columns. -/
theorem c6_amended_zero_weight :
    runMd5Report [("f1", 0)] none ["f1\tKEYZ\t100.0\t50\t0\t0\t0\t0\t0\t0\t1e-10\t0"]
      = .ok "KEYZ\t0\t0\t0\t0\t0\t0\n" ∧
    ((runMd5 [("f1", 0)] ["f1\tKEYZ\t100.0\t50\t0\t0\t0\t0\t0\t0\t1e-10\t0"]).map
        (fun st => alookup st.data "KEYZ") = .ok (some md5Zero)) ∧
    runLcaReport [("f1", 0)] ["m\tf1\t100.0\t50\t1e-10\tTAXZ\t3"]
      = .ok "TAXZ\t0\t0\t0\t0\t0\t0\n" ∧
    (∀ (amap : List (String × Int)) (st : SrcState) (parts : List String)
        (identV evalV : PyF) (eexp : Int),
        parseFloat (fieldGet parts 2) = some identV →
        parseFloat (fieldGet parts 4) = some evalV →
        get_exponent evalV = .ok eexp →
        get_abundance (fieldGet parts 1) amap < 1 →
        srcStepParts amap st parts = .ok st) := by
  refine ⟨by decide, by decide, by decide, ?_⟩
  intro amap st parts identV evalV eexp h1 h2 h3 h4
  simp only [srcStepParts, h1, h2, h3, if_pos h4]
  split
  · rfl
  · split
    · rfl
    · rfl

/-- Claim C6 (amended) witness: a concrete zero-weight source-mode record
leaves the initial state unchanged. -/
theorem c6_amended_zero_weight_witness :
    srcStepParts [("fz", 0)] srcInit ["m", "fz", "100.0", "50", "1e-10", "s1"]
      = .ok srcInit :=
  c6_amended_zero_weight.2.2.2 [("fz", 0)] srcInit
    ["m", "fz", "100.0", "50", "1e-10", "s1"]
    (.fin (intQ 100)) (.fin ⟨1, 10000000000⟩) (-10)
    (by decide) (by decide) (by decide) (by decide)

/-- Claim C7 (confirmed): `get_exponent` returns -5 for "1e-5", returns 0
when the e-value equals 0, and for input matching no scientific-notation
exponent form returns the negated count of digits after the decimal point,
so "0.0001" yields -4. -/
theorem c7_get_exponent :
    get_exponent_str "1e-5" = .ok (-5) ∧
    get_exponent PyF.zero = .ok 0 ∧
    (∀ s i f, evMatch s = none → pySplit '.' s = [i, f] →
        get_exponent_str s = .ok (-(f.length : Int))) ∧
    get_exponent_str "0.0001" = .ok (-4) := by
  refine ⟨by decide, by decide, ?_, by decide⟩
  intro s i f h1 h2
  unfold get_exponent_str
  rw [h1, h2]

/-- Claim C7 witness: the dotted-decimal fallback at the concrete input
"0.25" gives -2. -/
theorem c7_get_exponent_witness : get_exponent_str "0.25" = .ok (-2) := by
  have h := c7_get_exponent.2.2.1 "0.25" "0" "25" (by decide) (by decide)
  exact h

/-- Claim C8 (confirmed): for every integer exponent, `get_e_bin` returns
the first threshold of {-5,-10,-20,-30,-1000} the exponent is greater than
or equal to, with exponents more extreme than -1000, or exactly 0,
collapsing to -1000; in particular e_bin(-3) = -5, e_bin(-7) = -10,
e_bin(-1500) = -1000, e_bin(0) = -1000. -/
theorem c8_e_bin :
    (∀ v : Int, get_e_bin v = specEBin v) ∧
    get_e_bin (-3) = -5 ∧
    get_e_bin (-7) = -10 ∧
    get_e_bin (-1500) = -1000 ∧
    get_e_bin 0 = -1000 := by
  refine ⟨?_, by decide, by decide, by decide, by decide⟩
  intro v
  unfold get_e_bin specEBin
  by_cases h : v = 0 ∨ v < -1000
  · simp [h]
  · simp only [if_neg h]
    push_neg at h
    obtain ⟨h0, hge⟩ := h
    cases hf : EVALS.find? (fun e => decide (e ≤ v)) with
    | some e => simp
    | none =>
        exfalso
        have hm : (-1000 : Int) ∈ EVALS := by decide
        have hx := List.find?_eq_none.mp hf (-1000) hm
        simp at hx
        omega

/-- Claim C9 (confirmed): an e-value whose text matches neither the
scientific-notation exponent grammar nor the dotted-decimal form (exactly
one decimal point) makes `get_exponent` take the fatal `os._exit(1)` path,
modelled as `.error`, so the run aborts instead of continuing with a coerced
value; concretely a checksum-mode line with e-value text `nan` kills the
whole run. -/
theorem c9_bad_evalue_fatal :
    (∀ s, evMatch s = none → (pySplit '.' s).length ≠ 2 →
        ∃ m, get_exponent_str s = .error m) ∧
    runMd5 [] ["f1\tK\t100.0\t50\t0\t0\t0\t0\t0\t0\tnan\t0"]
      = .error "bad e-value: nan" := by
  refine ⟨?_, by decide⟩
  intro s h1 h2
  unfold get_exponent_str
  rw [h1]
  rcases hp : pySplit '.' s with _ | ⟨a, _ | ⟨b, _ | ⟨c, tl⟩⟩⟩
  · exact ⟨_, rfl⟩
  · exact ⟨_, rfl⟩
  · exact absurd (show (pySplit '.' s).length = 2 by rw [hp]; rfl) h2
  · exact ⟨_, rfl⟩

/-- Claim C9 witness: the text "nan" (no exponent form, no decimal point)
is fatal. -/
theorem c9_bad_evalue_fatal_witness : ∃ m, get_exponent_str "nan" = .error m :=
  c9_bad_evalue_fatal.1 "nan" (by decide) (by decide)

/-- Claim C10 (confirmed): after any successfully processed source-mode
stream, the e-value and identity histograms hold exactly the same set of
source keys with equal per-source count totals (each folded record
increments both with the same weight), and every member of `SOURCES` has an
e-value row — so the formatter's skip of sources absent from the e-value
histogram never suppresses a source in an end-to-end run. -/
theorem c10_source_histogram_parity :
    ∀ (amap : List (String × Int)) (lines : List String) (st : SrcState),
      runSrc amap lines = .ok st →
      ((∀ s, (alookup st.eVal s).isSome = true ↔ (alookup st.ident s).isSome = true) ∧
       (∀ s eh ih, alookup st.eVal s = some eh → alookup st.ident s = some ih →
          sumCounts eh = sumCounts ih) ∧
       (∀ s, s ∈ pySetElems st.table → (alookup st.eVal s).isSome = true)) := by
  intro amap lines st h
  refine runE_preserve SrcInv (srcStep amap) ?_ lines srcInit st srcInv_init h
  intro st1 l st2 hP hs
  rcases srcStepParts_cases amap st1 (pySplit '\t' (pyStrip l)) st2 hs with rfl | ⟨src, eb, ib, ab, rfl⟩
  · exact hP
  · exact srcInv_apply st1 src eb ib ab hP

/-- Claim C10 witness: the histogram key parity instantiated on the state
reached from one concrete source-mode line. -/
theorem c10_source_histogram_parity_witness :
    (alookup (SrcState.mk [none, none, none, some "b", none, none, none, none]
        [("b", [(-10, 1)])] [("b", [(100, 1)])]).eVal "b").isSome = true ↔
    (alookup (SrcState.mk [none, none, none, some "b", none, none, none, none]
        [("b", [(-10, 1)])] [("b", [(100, 1)])]).ident "b").isSome = true :=
  (c10_source_histogram_parity [] ["m\tf1\t100.0\t50\t1e-10\tb"]
    (SrcState.mk [none, none, none, some "b", none, none, none, none]
      [("b", [(-10, 1)])] [("b", [(100, 1)])]) (by decide)).1 "b"

end Sims

